import Mathlib

/-!
Verification development for the "Key Events Timeline" Power BI visual
(`src/visual.ts`).  The layout pipeline of the visual is embedded shallowly:
table cells and JS `Date` values are modelled explicitly (a `Date` value is
`null`, an Invalid Date, or a millisecond time value on the proleptic
Gregorian calendar, with the runtime timezone taken to be UTC), fallible JS
code (property access and `.toString()` on `null`/`undefined`) is modelled in
`Except`, and the external builtins `Date.parse` and the d3 x-scale are
abstracted as function parameters.  Exact rational arithmetic stands in for
JS floats; all quantities handled by the pipeline are far below 2^53, where
float arithmetic on them is exact.
-/

namespace Timeline

/-- Milliseconds per day. -/
def msPerDay : Int := 86400000

/-- Gregorian leap-year test. -/
def isLeap (y : Int) : Bool := (y % 4 == 0 && y % 100 != 0) || y % 400 == 0

/-- Number of Gregorian leap years in the interval `[1, y)`, extended to all
integers (`/` on `Int` is Euclidean division, which is floor division for the
positive divisors used here). -/
def leapsBefore (y : Int) : Int := (y - 1) / 4 - (y - 1) / 100 + (y - 1) / 400

/-- Day number (days since 1970-01-01) of January 1 of year `y`. -/
def daysToYear (y : Int) : Int := 365 * (y - 1970) + leapsBefore y - leapsBefore 1970

/-- The calendar year containing day number `z` (what `getFullYear` returns
for a time value inside day `z`): an estimate from the average year length
146097/400, corrected to the year whose January 1 is the last one at or
before `z`. -/
def yearFromDays (z : Int) : Int :=
  let y0 := 1970 + (400 * z) / 146097
  if daysToYear (y0 + 2) ≤ z then y0 + 2
  else if daysToYear (y0 + 1) ≤ z then y0 + 1
  else if daysToYear y0 ≤ z then y0
  else y0 - 1

theorem daysToYear_succ_bounds (y : Int) :
    daysToYear y + 365 ≤ daysToYear (y + 1) ∧ daysToYear (y + 1) ≤ daysToYear y + 366 := by
  unfold daysToYear leapsBefore
  omega

theorem daysToYear_mono {a b : Int} (h : a ≤ b) : daysToYear a ≤ daysToYear b :=
  Int.le_induction (P := fun t => daysToYear a ≤ daysToYear t) le_rfl
    (fun n _ ih => by have := daysToYear_succ_bounds n; omega) b h

/-- `yearFromDays z` is the year whose January 1 is the last one at or before
day `z`. -/
theorem yearFromDays_spec (z : Int) :
    daysToYear (yearFromDays z) ≤ z ∧ z < daysToYear (yearFromDays z + 1) := by
  unfold yearFromDays
  simp only [daysToYear, leapsBefore]
  split
  · omega
  · split
    · omega
    · split
      · omega
      · have hn : ∀ t : Int, t - 1 + 1 = t := fun t => by ring
        simp only [hn]
        omega

theorem yearFromDays_daysToYear (y : Int) : yearFromDays (daysToYear y) = y := by
  have h := yearFromDays_spec (daysToYear y)
  rcases lt_trichotomy (yearFromDays (daysToYear y)) y with hlt | heq | hgt
  · have := daysToYear_mono (show yearFromDays (daysToYear y) + 1 ≤ y by omega)
    omega
  · exact heq
  · have h1 := daysToYear_mono (show y + 1 ≤ yearFromDays (daysToYear y) by omega)
    have h2 := daysToYear_succ_bounds y
    omega

theorem yearFromDays_mono {z1 z2 : Int} (h : z1 ≤ z2) : yearFromDays z1 ≤ yearFromDays z2 := by
  by_contra hc
  push_neg at hc
  have h1 := yearFromDays_spec z1
  have h2 := yearFromDays_spec z2
  have h3 := daysToYear_mono (show yearFromDays z2 + 1 ≤ yearFromDays z1 by omega)
  omega

/-- Day-of-year offset of the first day of 0-based month `m` (for
`0 ≤ m ≤ 11`) of year `y`. -/
def monthOffset (y : Int) (m : Int) : Int :=
  let L : Int := if isLeap y then 1 else 0
  if m ≤ 0 then 0
  else if m = 1 then 31
  else if m = 2 then 59 + L
  else if m = 3 then 90 + L
  else if m = 4 then 120 + L
  else if m = 5 then 151 + L
  else if m = 6 then 181 + L
  else if m = 7 then 212 + L
  else if m = 8 then 243 + L
  else if m = 9 then 273 + L
  else if m = 10 then 304 + L
  else 334 + L

/-- The 0-based month containing day number `z` (what `getMonth` returns). -/
def monthFromDays (z : Int) : Int :=
  let y := yearFromDays z
  let doy := z - daysToYear y
  let L : Int := if isLeap y then 1 else 0
  if doy < 31 then 0
  else if doy < 59 + L then 1
  else if doy < 90 + L then 2
  else if doy < 120 + L then 3
  else if doy < 151 + L then 4
  else if doy < 181 + L then 5
  else if doy < 212 + L then 6
  else if doy < 243 + L then 7
  else if doy < 273 + L then 8
  else if doy < 304 + L then 9
  else if doy < 334 + L then 10
  else 11

/-- Two-digit-year quirk of the JS `new Date(year, month, day)` constructor:
a year argument from 0 to 99 is interpreted as 1900 + year. -/
def quirkYear (y : Int) : Int := if 0 ≤ y ∧ y ≤ 99 then y + 1900 else y

/-- Time value of `new Date(y, m, d)` (local midnight; UTC runtime assumed).
Month overflow is normalized into the year as in JS; day overflow is plain
day arithmetic. -/
def mkDateMs (y m d : Int) : Int :=
  (daysToYear (quirkYear y + m / 12) + monthOffset (quirkYear y + m / 12) (m % 12) + (d - 1))
    * msPerDay

/-- A JS `Date` value as the visual handles it: `null`, an Invalid Date
(NaN time value, produced by `new Date(NaN)`), or a valid date identified by
its millisecond time value. -/
inductive JSDateVal where
  | null
  | invalid
  | valid (t : Int)
deriving DecidableEq

/-- The only exception the modelled code paths can raise: a JS `TypeError`
from property access or method call on `null`/`undefined`. -/
inductive JSError where
  | typeError
deriving DecidableEq

def JSDateVal.isValid : JSDateVal → Bool
  | .valid _ => true
  | _ => false

/-- JS `d.getTime()`: throws on `null`; NaN (modelled `none`) on an Invalid
Date. -/
def getTime : JSDateVal → Except JSError (Option Int)
  | .null => .error .typeError
  | .invalid => .ok none
  | .valid t => .ok (some t)

/-- JS `d.getFullYear()`: throws on `null`; NaN on an Invalid Date. -/
def getFullYear : JSDateVal → Except JSError (Option Int)
  | .null => .error .typeError
  | .invalid => .ok none
  | .valid t => .ok (some (yearFromDays (t / msPerDay)))

/-- JS `d.getMonth()` (0-based): throws on `null`; NaN on an Invalid Date. -/
def getMonth : JSDateVal → Except JSError (Option Int)
  | .null => .error .typeError
  | .invalid => .ok none
  | .valid t => .ok (some (monthFromDays (t / msPerDay)))

/-- A raw table cell value (Power BI `PrimitiveValue`). -/
inductive JSVal where
  | null
  | undefVal
  | str (s : String)
  | num (n : Int)
  | boolean (b : Bool)
deriving DecidableEq

/-- JS truthiness of a cell value. -/
def truthy : JSVal → Bool
  | .null => false
  | .undefVal => false
  | .str s => s != ""
  | .num n => n != 0
  | .boolean b => b

def isNullish : JSVal → Bool
  | .null => true
  | .undefVal => true
  | _ => false

/-- String conversion of a cell value (what `.toString()` returns when it
does not throw; the `null`/`undef` rows give JS `String(v)` and are never
reached through the truthiness-guarded call sites). -/
def jsStringOf : JSVal → String
  | .null => "null"
  | .undefVal => "undefined"
  | .str s => s
  | .num n => toString n
  | .boolean b => if b then "true" else "false"

/-- JS `v.toString()`: throws a TypeError on `null`/`undefined`. -/
def toStringJS (v : JSVal) : Except JSError String :=
  if isNullish v then .error .typeError else .ok (jsStringOf v)

/-- One extracted timeline event (`interface TimelineData`).  The opaque
per-row selection identity is modelled by the row index it is built from. -/
structure TimelineData where
  company : String
  ty : String
  description : Option String
  companyLink : Option String
  date : JSDateVal
  headerImage : Option String
  footerImage : Option String
  selectionId : Nat
deriving DecidableEq

/-- The seven role column indexes computed by the scan loop at the top of
`CONVERTER` (visual.ts lines 539-556); `-1` means unbound. -/
structure RoleIdx where
  company : Int
  ty : Int
  desc : Int
  companyLink : Int
  date : Int
  headerImage : Int
  footerImage : Int
deriving DecidableEq

/-- One iteration of the column-scan loop in `CONVERTER`: an if/else-if
chain over `roles.hasOwnProperty`, so a column is claimed by the first chain
role it carries, and a later matching column overwrites the stored index. -/
def roleStep (ti : Int) (col : List String) (r : RoleIdx) : RoleIdx :=
  if "Company" ∈ col then { r with company := ti }
  else if "Type" ∈ col then { r with ty := ti }
  else if "Description" ∈ col then { r with desc := ti }
  else if "CompanyLink" ∈ col then { r with companyLink := ti }
  else if "Date" ∈ col then { r with date := ti }
  else if "HeaderImage" ∈ col then { r with headerImage := ti }
  else if "FooterImage" ∈ col then { r with footerImage := ti }
  else r

def roleScanAux (ti : Nat) (r : RoleIdx) : List (List String) → RoleIdx
  | [] => r
  | c :: rest => roleScanAux (ti + 1) (roleStep (ti : Int) c r) rest

def noRole : RoleIdx := ⟨-1, -1, -1, -1, -1, -1, -1⟩

/-- The column-scan loop of `CONVERTER` (lines 540-556). -/
def computeRoleIdx (columns : List (List String)) : RoleIdx :=
  roleScanAux 0 noRole columns

/-- JS `row[i]`: any out-of-range index (including `-1`) gives `undefined`. -/
def cellAt (row : List JSVal) (i : Int) : JSVal :=
  if h : 0 ≤ i ∧ i.toNat < row.length then row.get ⟨i.toNat, h.2⟩ else .undefVal

/-- JS pattern `v ? v.toString() : <dflt>` - never throws, because a truthy
value is never `null`/`undefined`. -/
def coerceOrEmpty (v : JSVal) : String :=
  if truthy v then jsStringOf v else ""

def coerceOrNull (v : JSVal) : Option String :=
  if truthy v then some (jsStringOf v) else none

/-- JS pattern `v ? new Date(Date.parse(v.toString())) : null` from the date
field of `CONVERTER` (line 564).  `parse` models the external `Date.parse`
builtin, `none` standing for NaN, which makes the constructed date Invalid. -/
def coerceDate (parse : String → Option Int) (v : JSVal) : JSDateVal :=
  if truthy v then
    match parse (jsStringOf v) with
    | some t => .valid t
    | none => .invalid
  else .null

/-- The body of the row loop of `CONVERTER` (lines 557-569).  Only the
Company field is read with an unguarded `.toString()`. -/
def convertRow (parse : String → Option Int) (idx : RoleIdx) (i : Nat) (row : List JSVal) :
    Except JSError TimelineData := do
  let companyStr ← toStringJS (cellAt row idx.company)
  .ok { company := companyStr
        ty := coerceOrEmpty (cellAt row idx.ty)
        description := coerceOrNull (cellAt row idx.desc)
        companyLink := coerceOrNull (cellAt row idx.companyLink)
        date := coerceDate parse (cellAt row idx.date)
        headerImage := coerceOrNull (cellAt row idx.headerImage)
        footerImage := coerceOrNull (cellAt row idx.footerImage)
        selectionId := i }

def convertRows (parse : String → Option Int) (idx : RoleIdx) (i : Nat) :
    List (List JSVal) → Except JSError (List TimelineData)
  | [] => .ok []
  | row :: rest => do
      let e ← convertRow parse idx i row
      let es ← convertRows parse idx (i + 1) rest
      .ok (e :: es)

/-- `Visual.CONVERTER` (lines 534-572). -/
def CONVERTER (parse : String → Option Int) (columns : List (List String))
    (rows : List (List JSVal)) : Except JSError (List TimelineData) :=
  convertRows parse (computeRoleIdx columns) 0 rows

/-- Lines 122-123 of `update`: conversion followed by the `slice(0, 100)`
hard cap. -/
def extractEvents (parse : String → Option Int) (columns : List (List String))
    (rows : List (List JSVal)) : Except JSError (List TimelineData) := do
  let td ← CONVERTER parse columns rows
  .ok (td.take 100)

/-- `new Date(y, 0, 1)` - January 1 of year `y` via the JS constructor
(subject to the two-digit-year quirk). -/
def mkDateY (y : Int) : JSDateVal := .valid (mkDateMs y 0 1)

/-- January 1 of year `y` as a plain date value (no constructor involved). -/
def jan1 (y : Int) : JSDateVal := .valid (daysToYear y * msPerDay)

/-- A JS number as produced by `Math.min`/`Math.max` over date values. -/
inductive JSNum where
  | nan
  | posInf
  | negInf
  | int (t : Int)
deriving DecidableEq

/-- Numeric coercion of a `Date` inside `Math.min`/`Math.max`: `null` coerces
to `+0`, an Invalid Date to NaN, a valid date to its time value. -/
def dateToNum : JSDateVal → Option Int
  | .null => some 0
  | .invalid => none
  | .valid t => some t

/-- One accumulation step of `Math.min` over possibly-NaN numbers. -/
def jsMinStep (acc : JSNum) (x : Option Int) : JSNum :=
  match acc, x with
  | .nan, _ => .nan
  | _, none => .nan
  | .posInf, some t => .int t
  | .negInf, some _ => .negInf
  | .int a, some t => .int (min a t)

/-- `Math.min(...values)`: NaN if any argument is NaN, `+Infinity` on an
empty argument list. -/
def jsMathMin (l : List (Option Int)) : JSNum := l.foldl jsMinStep .posInf

/-- One accumulation step of `Math.max` over possibly-NaN numbers. -/
def jsMaxStep (acc : JSNum) (x : Option Int) : JSNum :=
  match acc, x with
  | .nan, _ => .nan
  | _, none => .nan
  | .negInf, some t => .int t
  | .posInf, some _ => .posInf
  | .int a, some t => .int (max a t)

/-- `Math.max(...values)`: NaN if any argument is NaN, `-Infinity` on an
empty argument list. -/
def jsMathMax (l : List (Option Int)) : JSNum := l.foldl jsMaxStep .negInf

/-- `new Date(n)` for a JS number `n`: NaN or infinite gives an Invalid
Date. -/
def newDateOfNum : JSNum → JSDateVal
  | .int t => .valid t
  | _ => .invalid

/-- `new Date(d.getFullYear() + off, 0, 1)` for a date `d` that is never
`null` (it is the result of `new Date(Math.min ...)` in the fallback path);
a NaN year makes the constructed date Invalid. -/
def jan1OfDate (d : JSDateVal) (off : Int) : JSDateVal :=
  match d with
  | .valid t => mkDateY (yearFromDays (t / msPerDay) + off)
  | _ => .invalid

/-- The data-driven fallback window of `update` (lines 138-141). -/
def fallbackWindow (td : List TimelineData) : JSDateVal × JSDateVal :=
  (jan1OfDate (newDateOfNum (jsMathMin (td.map fun d => dateToNum d.date))) 0,
   jan1OfDate (newDateOfNum (jsMathMax (td.map fun d => dateToNum d.date))) 1)

/-- JS `a >= b` where either side may be NaN (`none`). -/
def geJS : Option Int → Option Int → Bool
  | some a, some b => decide (b ≤ a)
  | _, _ => false

/-- JS `a <= b` where either side may be NaN (`none`). -/
def leJS : Option Int → Option Int → Bool
  | some a, some b => decide (a ≤ b)
  | _, _ => false

/-- One `map(d => { if (cmp(d.Date.getFullYear())) return d; }).filter(e => e)`
pass from `update` (lines 130 and 132): `getFullYear` is evaluated on every
event in order, so an event whose date is `null` raises a TypeError. -/
def filterPass (cmp : Option Int → Bool) : List TimelineData → Except JSError (List TimelineData)
  | [] => .ok []
  | d :: rest => do
      let y ← getFullYear d.date
      let r ← filterPass cmp rest
      .ok (if cmp y then d :: r else r)

/-- The date-window selection of `update` (lines 124-142): the configured
candidate window `[Jan 1 (cy - back), Jan 1 (cy + fwd)]` with the events
year-filtered into it, or the data-driven fallback window over the full
(already capped) event list when the filtered list is empty. -/
def selectWindow (cy back fwd : Int) (td : List TimelineData) :
    Except JSError (JSDateVal × JSDateVal × List TimelineData) :=
  if 0 < td.length then
    let minC := mkDateY (cy - back)
    let maxC := mkDateY (cy + fwd)
    match getFullYear minC with
    | .error e => .error e
    | .ok minY =>
      match filterPass (fun y => geJS y minY) td with
      | .error e => .error e
      | .ok l1 =>
        match getFullYear maxC with
        | .error e => .error e
        | .ok maxY =>
          match filterPass (fun y => leJS y maxY) l1 with
          | .error e => .error e
          | .ok l2 =>
            if 0 < l2.length then .ok (minC, maxC, l2)
            else .ok ((fallbackWindow td).1, (fallbackWindow td).2, td)
  else .ok ((fallbackWindow td).1, (fallbackWindow td).2, td)

/-- The calendar year of an event date (spec side; equals what
`getFullYear` computes on a valid date). -/
def eventYear (e : TimelineData) : Int :=
  match e.date with
  | .valid t => yearFromDays (t / msPerDay)
  | _ => 0

/-- The time value of an event date (spec side). -/
def eventTime (e : TimelineData) : Int :=
  match e.date with
  | .valid t => t
  | _ => 0

/-- Minimum event year of a list of events (spec side). -/
def minEventYear (td : List TimelineData) : Int :=
  match td.map eventYear with
  | [] => 0
  | y :: ys => ys.foldl min y

/-- Maximum event year of a list of events (spec side). -/
def maxEventYear (td : List TimelineData) : Int :=
  match td.map eventYear with
  | [] => 0
  | y :: ys => ys.foldl max y

/-- The fixed 15-color palette of `getColorDataByYear` (lines 502-503). -/
def colors : List String :=
  [ "#242B47", "#D5792E", "#8EB40E", "#597DAB", "#5AC1C4", "#595959", "#154360",
    "#0B5345", "#784212", "#424949", "#17202A", "#E74C3C", "#00ff00", "#0000ff",
    "#252D48" ]

/-- The loop of `getColorDataByYear`: year `minYear + k` receives
`colors[k]`, which is `undefined` (`none`) once `k` runs past the end of the
palette - there is no modulo. -/
def colorAssign (minYear maxYear : Int) : List (Int × Option String) :=
  (List.range (maxYear + 2 - minYear).toNat).map
    (fun (k : Nat) => (minYear + (k : Int), colors.get? k))

/-- `getColorDataByYear` (lines 501-511), taking the window dates; a NaN
year (Invalid Date) makes the loop condition false, giving an empty table. -/
def getColorDataByYear (minD maxD : JSDateVal) :
    Except JSError (List (Int × Option String)) := do
  let y1 ← getFullYear minD
  let y2 ← getFullYear maxD
  match y1, y2 with
  | some a, some b => .ok (colorAssign a b)
  | _, _ => .ok []

inductive Granularity where
  | month
  | year
deriving DecidableEq

/-- The x-scale configuration chosen by `renderXandYAxis`: tick granularity
and time domain. -/
structure AxisConfig where
  granularity : Granularity
  domainMin : JSDateVal
  domainMax : JSDateVal
deriving DecidableEq

/-- JS `Math.round` (half rounds toward positive infinity) on an exact
rational. -/
def jsRound (q : ℚ) : Int := ⌊q + 1 / 2⌋

/-- `diff_years` (lines 615-619): `|Math.round(((dt2 - dt1) / 1000 / 86400)
/ 365.25)|`, propagating NaN from an Invalid Date and throwing on `null`. -/
def diff_years (dt2 dt1 : JSDateVal) : Except JSError (Option Int) := do
  let t2 ← getTime dt2
  let t1 ← getTime dt1
  match t2, t1 with
  | some a, some b =>
      .ok (some |jsRound ((((a : ℚ) - (b : ℚ)) / 1000 / 86400) / (365.25 : ℚ))|)
  | _, _ => .ok none

/-- `new Date(y, m, 1)` with possibly-NaN (`none`) year and month. -/
def newDateYM1 : Option Int → Option Int → JSDateVal
  | some y, some m => .valid (mkDateMs y m 1)
  | _, _ => .invalid

/-- The granularity choice and x-scale domain of `renderXandYAxis`
(lines 451-477): Month with the domain widened by one month on each side
when `diff_years(minDate, maxDate) <= 1`, else Year over the window
unchanged. -/
def renderXandYAxis (minD maxD : JSDateVal) : Except JSError AxisConfig :=
  match diff_years minD maxD with
  | .error e => .error e
  | .ok dy =>
    if (match dy with | some v => decide (v ≤ 1) | none => false) then
      match getFullYear minD, getMonth minD, getFullYear maxD, getMonth maxD with
      | .ok y1, .ok m1, .ok y2, .ok m2 =>
          .ok ⟨.month, newDateYM1 y1 (m1.map fun m => m - 1),
               newDateYM1 y2 (m2.map fun m => m + 1)⟩
      | _, _, _, _ => .error .typeError
    else
      .ok ⟨.year, minD, maxD⟩

/-- Modelled from the spec: the configured layout mode.  The settings module
(`./settings`) is not part of the provided source; §6 of the spec gives
`getConfiguration() -> layoutMode enum {None, Header, Footer}`. -/
inductive LayoutMode where
  | noLayout
  | header
  | footer
deriving DecidableEq

/-- `renderHeaderAndFooter` (lines 513-532): destructures the first event
(`let [timeline] = timelineData`) and dereferences it whenever the layout is
header or footer, which throws a TypeError when the event list is empty. -/
def renderHeaderAndFooter (layout : LayoutMode) (td : List TimelineData) :
    Except JSError Unit :=
  match layout with
  | .header =>
    match td.head? with
    | none => .error .typeError
    | some _ => .ok ()
  | .footer =>
    match td.head? with
    | none => .error .typeError
    | some _ => .ok ()
  | .noLayout => .ok ()

/-- The assembled layout: window, year-color table, axis configuration and
the working event list. -/
structure LayoutModel where
  window : JSDateVal × JSDateVal
  yearColors : List (Int × Option String)
  axis : AxisConfig
  events : List TimelineData
deriving DecidableEq

/-- The data pipeline of `update` (lines 122-149): extraction and cap,
window selection, year colors, header/footer rendering, then the axis
scales, in source order. -/
def updateTimeline (layout : LayoutMode) (cy back fwd : Int)
    (parse : String → Option Int) (columns : List (List String))
    (rows : List (List JSVal)) : Except JSError LayoutModel := do
  let td ← extractEvents parse columns rows
  let (minD, maxD, working) ← selectWindow cy back fwd td
  let cols ← getColorDataByYear minD maxD
  let _ ← renderHeaderAndFooter layout working
  match renderXandYAxis minD maxD with
  | .error e => .error e
  | .ok axis => .ok ⟨(minD, maxD), cols, axis, working⟩

/-- The four vertical placement lanes. -/
inductive Lane where
  | farNegative
  | nearNegative
  | nearPositive
  | farPositive
deriving DecidableEq

/-- Logical y of each lane: the argument passed to `yScale` for the box of
that lane in `renderBox` and `renderTimeRangeLines`. -/
def laneLogicalY : Lane → Int
  | .farNegative => -100
  | .nearNegative => -60
  | .nearPositive => 40
  | .farPositive => 90

/-- Lane of the event at 0-based index `i`: the `transform` callback of
`renderBox` (lines 195-207) and the `y2` callback of `renderTimeRangeLines`
(lines 351-369).  `Math.ceil(i / 2)` for odd `i` is `(i + 1) / 2`. -/
def slotLane (i : Nat) : Lane :=
  if i % 2 = 0 then
    if (i / 2) % 2 = 0 then .farNegative else .nearNegative
  else
    if ((i + 1) / 2) % 2 = 0 then .farPositive else .nearPositive

/-- The `x1` callback of `renderTimeRangeLines` (lines 338-340): NaN scale
output (`none`) is clamped to 0.  The d3 x-scale is abstracted as a function
parameter. -/
def lineX1 (xScale : JSDateVal → Option ℚ) (d : TimelineData) : ℚ :=
  match xScale d.date with
  | none => 0
  | some v => v + 20

/-- The `x2` callback of `renderTimeRangeLines` (lines 348-350), with the
same NaN guard as `x1`. -/
def lineX2 (xScale : JSDateVal → Option ℚ) (d : TimelineData) : ℚ :=
  match xScale d.date with
  | none => 0
  | some v => v + 20

instance {ε α : Type} [DecidableEq ε] [DecidableEq α] : DecidableEq (Except ε α) := fun a b =>
  match a, b with
  | .ok x, .ok y =>
    if h : x = y then .isTrue (by rw [h]) else .isFalse (by intro hc; cases hc; exact h rfl)
  | .error x, .error y =>
    if h : x = y then .isTrue (by rw [h]) else .isFalse (by intro hc; cases hc; exact h rfl)
  | .ok _, .error _ => .isFalse (by intro hc; cases hc)
  | .error _, .ok _ => .isFalse (by intro hc; cases hc)

/-- A minimal event with the given date value, used in concrete instances. -/
def evWith (d : JSDateVal) : TimelineData :=
  { company := "A", ty := "", description := none, companyLink := none,
    date := d, headerImage := none, footerImage := none, selectionId := 0 }

/-- C1 counterexample: the lane sequence the claim lists for indexes 0..7
is not the one the placement rule yields - already at index 1 the code
computes count = ceil(1/2) = 1, odd, hence NearPositive, not FarPositive. -/
theorem slotLane_claimedSequence_false :
    ¬ ((List.range 8).map slotLane =
      [Lane.farNegative, Lane.farPositive, Lane.nearNegative, Lane.nearPositive,
       Lane.farNegative, Lane.farPositive, Lane.nearNegative, Lane.nearPositive]) := by
  decide

/-- C1 (amended): slot placement is a pure function of the 0-based index -
for even `i`, count = i/2, even count gives FarNegative (logical y -100),
odd count NearNegative (y -60); for odd `i`, count = ceil(i/2), even count
gives FarPositive (y 90), odd count NearPositive (y 40) - and for
i = 0..7 the lane sequence is FarNegative, NearPositive, NearNegative,
FarPositive, FarNegative, NearPositive, NearNegative, FarPositive,
repeating with period 4. -/
theorem slotLane_assignment :
    ((List.range 8).map slotLane =
      [Lane.farNegative, Lane.nearPositive, Lane.nearNegative, Lane.farPositive,
       Lane.farNegative, Lane.nearPositive, Lane.nearNegative, Lane.farPositive]) ∧
    (∀ i : Nat, slotLane (i + 4) = slotLane i) ∧
    (laneLogicalY Lane.farNegative = -100 ∧ laneLogicalY Lane.nearNegative = -60 ∧
     laneLogicalY Lane.nearPositive = 40 ∧ laneLogicalY Lane.farPositive = 90) := by
  refine ⟨by decide, ?_, by decide⟩
  intro i
  have h1 : (i + 4) % 2 = i % 2 := by omega
  have h2 : (i + 4) / 2 = i / 2 + 2 := by omega
  have h3 : (i + 4 + 1) / 2 = (i + 1) / 2 + 2 := by omega
  have h4 : ∀ x : Nat, (x + 2) % 2 = x % 2 := fun x => by omega
  unfold slotLane
  rw [h1, h2, h3, h4, h4]

/-- C10 (confirmed): when the x-scale output for an event date is NaN
(modelled `none`), both connector-line x endpoints are clamped to 0 rather
than propagating NaN. -/
theorem lineEndpoints_clampNaN (xScale : JSDateVal → Option ℚ) (d : TimelineData)
    (h : xScale d.date = none) : lineX1 xScale d = 0 ∧ lineX2 xScale d = 0 := by
  unfold lineX1 lineX2
  rw [h]
  exact ⟨rfl, rfl⟩

/-- C10 witness: a concrete scale that yields NaN on the event date. -/
theorem lineEndpoints_clampNaN_witness :
    lineX1 (fun _ => none) (evWith .invalid) = 0 ∧
    lineX2 (fun _ => none) (evWith .invalid) = 0 :=
  lineEndpoints_clampNaN (fun _ => none) (evWith .invalid) rfl

/-- C3 (code bug): on the window [Jan 1 2000, Jan 1 2015] the color loop
walks years 2000..2016 with a plainly incremented palette index and no
modulo, so year 2015 reads `colors[15]` - past the end of the 15-color
palette, `undefined` - instead of wrapping to palette[0]; in particular
colorOf(2015) differs from colorOf(2000) = palette[0] although both years
are in range. -/
theorem colorTable_indexOverflow :
    getColorDataByYear (mkDateY 2000) (mkDateY 2015) = .ok (colorAssign 2000 2015) ∧
    (colorAssign 2000 2015).find? (fun p => p.1 == 2000) = some (2000, some ( "#242B47" )) ∧
    (colorAssign 2000 2015).find? (fun p => p.1 == 2015) = some (2015, none) := by
  refine ⟨by decide, by decide, by decide⟩

/-- C6 (code bug): on an empty dataset the pipeline does not stop with an
empty layout - with a header layout configured, `renderHeaderAndFooter`
dereferences the destructured first event (`undefined`) and the whole
update throws a TypeError (and the axis scale would be computed over an
Invalid-Date window in any case). -/
theorem emptyInput_headerLayout_throws (cy back fwd : Int) (parse : String → Option Int) :
    updateTimeline .header cy back fwd parse [ [ "Company" ], [ "Date" ] ] [] =
      .error .typeError := rfl

/-- C8 (code bug): a row with a missing (null) date cell yields an event
with date = null, which passes through extraction - but the date-window
year filter then calls `getFullYear` on the null date and the pipeline
throws a TypeError instead of excluding the event. -/
theorem nullDate_filter_throws (parse : String → Option Int) :
    extractEvents parse [ [ "Company" ], [ "Date" ] ]
        [ [ JSVal.str ( "A" ), JSVal.null ] ] = .ok [ evWith .null ] ∧
    updateTimeline .noLayout 2024 1 8 parse [ [ "Company" ], [ "Date" ] ]
        [ [ JSVal.str ( "A" ), JSVal.null ] ] = .error .typeError :=
  ⟨rfl, rfl⟩

/-- The seven named column roles. -/
inductive Role where
  | company
  | ty
  | desc
  | companyLink
  | date
  | headerImage
  | footerImage
deriving DecidableEq

/-- The role a column binds in the scan chain: the first chain role the
column carries (spec side, mirroring the if/else-if order of the scan). -/
def claimedRole (col : List String) : Option Role :=
  if "Company" ∈ col then some .company
  else if "Type" ∈ col then some .ty
  else if "Description" ∈ col then some .desc
  else if "CompanyLink" ∈ col then some .companyLink
  else if "Date" ∈ col then some .date
  else if "HeaderImage" ∈ col then some .headerImage
  else if "FooterImage" ∈ col then some .footerImage
  else none

def getRole (r : RoleIdx) : Role → Int
  | .company => r.company
  | .ty => r.ty
  | .desc => r.desc
  | .companyLink => r.companyLink
  | .date => r.date
  | .headerImage => r.headerImage
  | .footerImage => r.footerImage

/-- Index of the last column in the list claiming role `R`, counting from
`ti`, with default `dflt` when no column claims it (spec side: the
"last match wins" reading). -/
def lastClaimFrom (R : Role) (ti : Int) (dflt : Int) : List (List String) → Int
  | [] => dflt
  | c :: rest => lastClaimFrom R (ti + 1) (if claimedRole c = some R then ti else dflt) rest

theorem getRole_roleStep (ti : Int) (col : List String) (r : RoleIdx) (R : Role) :
    getRole (roleStep ti col r) R =
      if claimedRole col = some R then ti else getRole r R := by
  unfold roleStep claimedRole
  split_ifs <;> cases R <;> simp_all [getRole]

theorem getRole_roleScanAux (columns : List (List String)) :
    ∀ (ti : Nat) (r : RoleIdx) (R : Role),
      getRole (roleScanAux ti r columns) R =
        lastClaimFrom R (ti : Int) (getRole r R) columns := by
  induction columns with
  | nil => intro ti r R; rfl
  | cons c rest ih =>
    intro ti r R
    show getRole (roleScanAux (ti + 1) (roleStep (ti : Int) c r) rest) R = _
    rw [ih (ti + 1) (roleStep (ti : Int) c r) R, getRole_roleStep]
    push_cast
    rfl

/-- C9 counterexample: with two columns both carrying the Company role, the
scan binds the role to column index 1, the last match - not the first. -/
theorem duplicateRole_firstMatch_false :
    (computeRoleIdx [ [ "Company" ], [ "Company" ] ]).company = 1 ∧ (1 : Int) ≠ 0 := by
  refine ⟨rfl, by decide⟩

/-- C9 (amended): each role maps to at most one column index (a single
stored index), and when several columns carry the same role the binding is
overwritten at each match, so the last matching column wins; a single
column carrying several roles is claimed by the first role in the chain
order Company, Type, Description, CompanyLink, Date, HeaderImage,
FooterImage. -/
theorem computeRoleIdx_lastMatchWins (columns : List (List String)) (R : Role) :
    getRole (computeRoleIdx columns) R = lastClaimFrom R 0 (-1) columns := by
  have h := getRole_roleScanAux columns 0 noRole R
  have hnr : getRole noRole R = -1 := by cases R <;> rfl
  rw [hnr] at h
  exact h

/-- The event a successful row conversion produces (spec side; compare
`convertRow`). -/
def convertRowOk (parse : String → Option Int) (idx : RoleIdx) (i : Nat)
    (row : List JSVal) : TimelineData :=
  { company := jsStringOf (cellAt row idx.company)
    ty := coerceOrEmpty (cellAt row idx.ty)
    description := coerceOrNull (cellAt row idx.desc)
    companyLink := coerceOrNull (cellAt row idx.companyLink)
    date := coerceDate parse (cellAt row idx.date)
    headerImage := coerceOrNull (cellAt row idx.headerImage)
    footerImage := coerceOrNull (cellAt row idx.footerImage)
    selectionId := i }

theorem convertRow_eq_ok (parse : String → Option Int) (idx : RoleIdx) (i : Nat)
    (row : List JSVal) (h : isNullish (cellAt row idx.company) = false) :
    convertRow parse idx i row = .ok (convertRowOk parse idx i row) := by
  unfold convertRow toStringJS
  rw [h]
  rfl

theorem convertRows_eq_ok (parse : String → Option Int) (idx : RoleIdx)
    (rows : List (List JSVal)) :
    ∀ i : Nat, (∀ row ∈ rows, isNullish (cellAt row idx.company) = false) →
      convertRows parse idx i rows =
        .ok ((rows.enumFrom i).map fun p => convertRowOk parse idx p.1 p.2) := by
  induction rows with
  | nil => intro i _; rfl
  | cons row rest ih =>
    intro i h
    show (do
        let e ← convertRow parse idx i row
        let es ← convertRows parse idx (i + 1) rest
        Except.ok (e :: es)) = _
    rw [convertRow_eq_ok parse idx i row (h row (by simp)),
      ih (i + 1) (fun r hr => h r (by simp [hr]))]
    rfl

/-- C7 counterexample: a row whose Company cell is null makes `CONVERTER`
throw a TypeError (the unguarded `row[_companyIndex].toString()`), so
extraction does not produce an event for it. -/
theorem nullCompany_converter_throws :
    CONVERTER (fun _ => none) [ [ "Company" ] ] [ [ JSVal.null ] ] = .error .typeError := rfl

/-- C7 (amended): row conversion throws a TypeError exactly when the cell in
the Company column is null or undefined (in particular when no Company
column exists, since `row[-1]` is undefined); any row whose Company cell is
present converts without throwing, the other roles falling back to their
defaults via truthiness guards. -/
theorem convertRow_throws_iff (parse : String → Option Int) (idx : RoleIdx) (i : Nat)
    (row : List JSVal) :
    (convertRow parse idx i row = .error .typeError ↔
      isNullish (cellAt row idx.company) = true) ∧
    (isNullish (cellAt row idx.company) = false →
      convertRow parse idx i row = .ok (convertRowOk parse idx i row)) := by
  constructor
  · constructor
    · intro h
      by_contra hc
      rw [convertRow_eq_ok parse idx i row (by simpa using hc)] at h
      cases h
    · intro h
      unfold convertRow toStringJS
      rw [h]
      rfl
  · exact convertRow_eq_ok parse idx i row

/-- C7 witness: a row with an empty-string Company cell (falsy but not
nullish) converts fine, to an event with empty company. -/
theorem convertRow_throws_iff_witness :
    convertRow (fun _ => none) (computeRoleIdx [ [ "Company" ] ]) 0 [ JSVal.str ( "" ) ] =
      .ok (convertRowOk (fun _ => none) (computeRoleIdx [ [ "Company" ] ]) 0
        [ JSVal.str ( "" ) ]) :=
  (convertRow_throws_iff (fun _ => none) (computeRoleIdx [ [ "Company" ] ]) 0
    [ JSVal.str ( "" ) ]).2 rfl

/-- C4 counterexample: on a 1-row dataset whose Company cell is null, the
extraction stage does not produce `min(1, 100) = 1` events - it throws. -/
theorem extractEvents_cap_false :
    ¬ ∃ out, extractEvents (fun _ => none) [ [ "Company" ], [ "Date" ] ]
        [ [ JSVal.null, JSVal.str ( "2020-01-05" ) ] ] = .ok out ∧ out.length = 1 := by
  rintro ⟨out, h, -⟩
  rw [show extractEvents (fun _ => none) [ [ "Company" ], [ "Date" ] ]
      [ [ JSVal.null, JSVal.str ( "2020-01-05" ) ] ] = .error .typeError from rfl] at h
  cases h

/-- C4 (amended): on any dataset all of whose rows carry a non-nullish
Company cell, the extraction stage (CONVERTER followed by `slice(0, 100)`)
produces exactly `min(n, 100)` events, one per row in input order with
excess rows dropped from the end. -/
theorem extractEvents_cap (parse : String → Option Int) (columns : List (List String))
    (rows : List (List JSVal))
    (h : ∀ row ∈ rows, isNullish (cellAt row (computeRoleIdx columns).company) = false) :
    extractEvents parse columns rows =
      .ok (((rows.enumFrom 0).map
        (fun p => convertRowOk parse (computeRoleIdx columns) p.1 p.2)).take 100) ∧
    (((rows.enumFrom 0).map
        (fun p => convertRowOk parse (computeRoleIdx columns) p.1 p.2)).take 100).length =
      min rows.length 100 := by
  constructor
  · unfold extractEvents CONVERTER
    rw [convertRows_eq_ok parse (computeRoleIdx columns) rows 0 h]
    rfl
  · rw [List.length_take, List.length_map, List.enumFrom_length]
    omega

/-- C4 witness: a two-row dataset extracts to two events in order. -/
theorem extractEvents_cap_witness :
    extractEvents (fun _ => none) [ [ "Company" ] ]
        [ [ JSVal.str ( "A" ) ], [ JSVal.str ( "B" ) ] ] =
      .ok [ convertRowOk (fun _ => none) (computeRoleIdx [ [ "Company" ] ]) 0
              [ JSVal.str ( "A" ) ],
            convertRowOk (fun _ => none) (computeRoleIdx [ [ "Company" ] ]) 1
              [ JSVal.str ( "B" ) ] ] ∧
    (2 : Nat) = min 2 100 :=
  ⟨((extractEvents_cap (fun _ => none) [ [ "Company" ] ]
      [ [ JSVal.str ( "A" ) ], [ JSVal.str ( "B" ) ] ] (by decide)).1).trans (by rfl),
   by decide⟩

theorem jsRound_div36525 (a : Int) :
    jsRound ((a : ℚ) / (365.25 : ℚ)) = (8 * a + 1461) / 2922 := by
  unfold jsRound
  have h : (a : ℚ) / (365.25 : ℚ) + 1 / 2 = ((8 * a + 1461 : Int) : ℚ) / ((2922 : ℕ) : ℚ) := by
    push_cast
    norm_num
    ring
  rw [h, Rat.floor_intCast_div_natCast]
  norm_num

theorem msdiff_days (d1 d2 : Int) :
    (((d1 * msPerDay : Int) : ℚ) - ((d2 * msPerDay : Int) : ℚ)) / 1000 / 86400 =
      ((d1 - d2 : Int) : ℚ) := by
  push_cast [msPerDay]
  ring

theorem diff_years_days (d1 d2 : Int) :
    diff_years (.valid (d1 * msPerDay)) (.valid (d2 * msPerDay)) =
      .ok (some |(8 * (d1 - d2) + 1461) / 2922|) := by
  show Except.ok (some |jsRound ((((d1 * msPerDay : Int) : ℚ) -
      ((d2 * msPerDay : Int) : ℚ)) / 1000 / 86400 / (365.25 : ℚ))|) = _
  rw [msdiff_days, jsRound_div36525]

/-- Reduction of `renderXandYAxis` on two valid dates. -/
theorem renderXandYAxis_valid (t1 t2 : Int) :
    renderXandYAxis (.valid t1) (.valid t2) =
      (if |jsRound (((t1 : ℚ) - (t2 : ℚ)) / 1000 / 86400 / (365.25 : ℚ))| ≤ 1 then
        .ok ⟨.month,
             newDateYM1 (some (yearFromDays (t1 / msPerDay)))
               (some (monthFromDays (t1 / msPerDay) - 1)),
             newDateYM1 (some (yearFromDays (t2 / msPerDay)))
               (some (monthFromDays (t2 / msPerDay) + 1))⟩
      else .ok ⟨.year, .valid t1, .valid t2⟩) := by
  unfold renderXandYAxis
  rw [show diff_years (.valid t1) (.valid t2) = .ok (some |jsRound (((t1 : ℚ) - (t2 : ℚ))
    / 1000 / 86400 / (365.25 : ℚ))|) from rfl]
  simp only [getFullYear, getMonth, Option.map, decide_eq_true_eq]

theorem absRound_iff (a : Int) :
    |(8 * a + 1461) / 2922| ≤ 1 ↔ (8 * |a| + 1461) / 2922 ≤ 1 := by
  rcases abs_cases a with ⟨h1, h2⟩ | ⟨h1, h2⟩ <;>
    rcases abs_cases ((8 * a + 1461) / 2922) with ⟨h3, h4⟩ | ⟨h3, h4⟩ <;>
      rw [h1, h3] <;> omega

theorem getFullYear_jan1 (y : Int) : getFullYear (jan1 y) = .ok (some y) := by
  show Except.ok (some (yearFromDays (daysToYear y * msPerDay / msPerDay))) = _
  rw [Int.mul_ediv_cancel _ (by norm_num [msPerDay] : msPerDay ≠ 0), yearFromDays_daysToYear]

theorem getMonth_jan1 (y : Int) : getMonth (jan1 y) = .ok (some 0) := by
  show Except.ok (some (monthFromDays (daysToYear y * msPerDay / msPerDay))) = _
  rw [Int.mul_ediv_cancel _ (by norm_num [msPerDay] : msPerDay ≠ 0)]
  unfold monthFromDays
  rw [yearFromDays_daysToYear]
  norm_num

theorem mkDateMs_dec (y : Int) (h : 101 ≤ y) : mkDateMs y (0 - 1) 1 = mkDateMs (y - 1) 11 1 := by
  unfold mkDateMs quirkYear
  rw [if_neg (show ¬(0 ≤ y ∧ y ≤ 99) by omega), if_neg (show ¬(0 ≤ y - 1 ∧ y - 1 ≤ 99) by omega)]
  rw [show (0 - 1 : Int) / 12 = -1 from rfl, show (0 - 1 : Int) % 12 = 11 from rfl,
    show (11 : Int) / 12 = 0 from rfl, show (11 : Int) % 12 = 11 from rfl,
    show y + (-1 : Int) = y - 1 from by ring, show (y - 1 + 0 : Int) = y - 1 from by ring]

/-- C5 (confirmed): on whole-day window dates (every window the pipeline
builds is a `new Date(y, 0, 1)` value, hence midnight-aligned), the axis
granularity is Month exactly when `round(|maxDate - minDate| in days /
365.25) <= 1`; in the Month case the domain is the window expanded by one
month on each side (for Jan-1 windows: Dec 1 of the preceding year to Feb 1
of the max year), and in the Year case the domain is the unexpanded window.
A span of exactly one calendar year (365 or 366 days) always yields Month. -/
theorem renderXandYAxis_granularity :
    (∀ d1 d2 : Int, ∃ cfg,
      renderXandYAxis (.valid (d1 * msPerDay)) (.valid (d2 * msPerDay)) = .ok cfg ∧
      (cfg.granularity = .month ↔ jsRound (|(d2 : ℚ) - (d1 : ℚ)| / (365.25 : ℚ)) ≤ 1) ∧
      (cfg.granularity = .year →
        cfg.domainMin = .valid (d1 * msPerDay) ∧ cfg.domainMax = .valid (d2 * msPerDay))) ∧
    (∀ y1 y2 : Int, 101 ≤ y1 → 101 ≤ y2 → ∀ cfg,
      renderXandYAxis (jan1 y1) (jan1 y2) = .ok cfg → cfg.granularity = .month →
      cfg.domainMin = .valid (mkDateMs (y1 - 1) 11 1) ∧
      cfg.domainMax = .valid (mkDateMs y2 1 1)) ∧
    (∀ y : Int, ∃ cfg, renderXandYAxis (jan1 y) (jan1 (y + 1)) = .ok cfg ∧
      cfg.granularity = .month) := by
  have hclaim : ∀ d1 d2 : Int,
      jsRound (|(d2 : ℚ) - (d1 : ℚ)| / (365.25 : ℚ)) = (8 * |d2 - d1| + 1461) / 2922 := by
    intro d1 d2
    have hcast : |(d2 : ℚ) - (d1 : ℚ)| = ((|d2 - d1| : Int) : ℚ) := by
      push_cast
      rfl
    rw [hcast, jsRound_div36525]
  refine ⟨?_, ?_, ?_⟩
  · intro d1 d2
    rw [show (JSDateVal.valid (d1 * msPerDay)) = .valid (d1 * msPerDay) from rfl]
    rw [renderXandYAxis_valid, msdiff_days, jsRound_div36525]
    by_cases hc : |(8 * (d1 - d2) + 1461) / 2922| ≤ 1
    · rw [if_pos hc]
      refine ⟨_, rfl, ?_, ?_⟩
      · simp only [true_iff]
        rw [hclaim]
        have habs : |d2 - d1| = |d1 - d2| := abs_sub_comm _ _
        rw [habs]
        exact (absRound_iff _).1 hc
      · intro hy
        cases hy
    · rw [if_neg hc]
      refine ⟨_, rfl, ?_, fun _ => ⟨rfl, rfl⟩⟩
      constructor
      · intro hy
        cases hy
      · intro hy
        exfalso
        rw [hclaim, abs_sub_comm] at hy
        exact hc ((absRound_iff _).2 hy)
  · intro y1 y2 h1 h2 cfg hok hm
    rw [show jan1 y1 = .valid (daysToYear y1 * msPerDay) from rfl,
      show jan1 y2 = .valid (daysToYear y2 * msPerDay) from rfl,
      renderXandYAxis_valid, msdiff_days, jsRound_div36525] at hok
    by_cases hc : |(8 * (daysToYear y1 - daysToYear y2) + 1461) / 2922| ≤ 1
    · rw [if_pos hc] at hok
      have e1 : (daysToYear y1 * msPerDay) / msPerDay = daysToYear y1 :=
        Int.mul_ediv_cancel _ (by norm_num [msPerDay])
      have e2 : (daysToYear y2 * msPerDay) / msPerDay = daysToYear y2 :=
        Int.mul_ediv_cancel _ (by norm_num [msPerDay])
      have em : ∀ y : Int, monthFromDays (daysToYear y) = 0 := by
        intro y
        unfold monthFromDays
        rw [yearFromDays_daysToYear]
        norm_num
      rw [e1, e2, em, em, yearFromDays_daysToYear, yearFromDays_daysToYear] at hok
      cases hok
      refine ⟨?_, ?_⟩
      · show JSDateVal.valid (mkDateMs y1 (0 - 1) 1) = JSDateVal.valid (mkDateMs (y1 - 1) 11 1)
        rw [mkDateMs_dec y1 h1]
      · show JSDateVal.valid (mkDateMs y2 (0 + 1) 1) = JSDateVal.valid (mkDateMs y2 1 1)
        norm_num
    · rw [if_neg hc] at hok
      cases hok
      cases hm
  · intro y
    rw [show jan1 y = .valid (daysToYear y * msPerDay) from rfl,
      show jan1 (y + 1) = .valid (daysToYear (y + 1) * msPerDay) from rfl,
      renderXandYAxis_valid, msdiff_days, jsRound_div36525]
    have hb := daysToYear_succ_bounds y
    have hc : |(8 * (daysToYear y - daysToYear (y + 1)) + 1461) / 2922| ≤ 1 := by
      rcases abs_cases ((8 * (daysToYear y - daysToYear (y + 1)) + 1461) / 2922) with
        ⟨h3, h4⟩ | ⟨h3, h4⟩ <;> rw [h3] <;> omega
    rw [if_pos hc]
    exact ⟨_, rfl, rfl⟩

/-- C5 witness: the window [Jan 1 2020, Jan 1 2021] (a one-year span) gets
Month granularity with the domain expanded to [Dec 1 2019, Feb 1 2021]. -/
theorem renderXandYAxis_granularity_witness :
    ∃ cfg, renderXandYAxis (jan1 2020) (jan1 2021) = .ok cfg ∧
      cfg.granularity = .month ∧
      cfg.domainMin = .valid (mkDateMs 2019 11 1) ∧
      cfg.domainMax = .valid (mkDateMs 2021 1 1) := by
  obtain ⟨cfg, hok, hm⟩ := renderXandYAxis_granularity.2.2 2020
  have hd := renderXandYAxis_granularity.2.1 2020 2021 (by norm_num) (by norm_num) cfg hok hm
  exact ⟨cfg, hok, hm, by simpa using hd.1, hd.2⟩

theorem mkDateMs_y01 (y : Int) : mkDateMs y 0 1 = daysToYear (quirkYear y) * msPerDay := by
  unfold mkDateMs
  rw [show (0 : Int) / 12 = 0 from rfl, show (0 : Int) % 12 = 0 from rfl, add_zero,
    show monthOffset (quirkYear y) 0 = 0 from by unfold monthOffset; norm_num]
  ring

theorem getFullYear_mkDateY (y : Int) : getFullYear (mkDateY y) = .ok (some (quirkYear y)) := by
  show Except.ok (some (yearFromDays (mkDateMs y 0 1 / msPerDay))) = _
  rw [mkDateMs_y01, Int.mul_ediv_cancel _ (by norm_num [msPerDay] : msPerDay ≠ 0),
    yearFromDays_daysToYear]

theorem mkDateY_eq_jan1 (y : Int) (h : ¬(0 ≤ y ∧ y ≤ 99)) : mkDateY y = jan1 y := by
  unfold mkDateY jan1
  rw [mkDateMs_y01]
  unfold quirkYear
  rw [if_neg h]

theorem filterPass_valid (cmp : Option Int → Bool) (l : List TimelineData)
    (h : ∀ e ∈ l, e.date.isValid = true) :
    filterPass cmp l = .ok (l.filter fun e => cmp (some (eventYear e))) := by
  induction l with
  | nil => rfl
  | cons d rest ih =>
    have hd := h d (by simp)
    cases hdd : d.date with
    | null => rw [hdd] at hd; simp [JSDateVal.isValid] at hd
    | invalid => rw [hdd] at hd; simp [JSDateVal.isValid] at hd
    | valid t =>
      show (do
          let y ← getFullYear d.date
          let r ← filterPass cmp rest
          Except.ok (if cmp y then d :: r else r)) = _
      rw [hdd, ih (fun e he => h e (by simp [he]))]
      have hey : eventYear d = yearFromDays (t / msPerDay) := by
        unfold eventYear
        rw [hdd]
      show Except.ok (if cmp (some (yearFromDays (t / msPerDay))) then _ else _) = _
      rw [List.filter_cons, hey]

theorem foldlMin_le (l : List Int) : ∀ a : Int,
    l.foldl min a ≤ a ∧ ∀ x ∈ l, l.foldl min a ≤ x := by
  induction l with
  | nil => intro a; simp
  | cons x xs ih =>
    intro a
    obtain ⟨h1, h2⟩ := ih (min a x)
    refine ⟨le_trans h1 (min_le_left a x), ?_⟩
    intro y hy
    rcases List.mem_cons.mp hy with rfl | hmem
    · exact le_trans h1 (min_le_right a y)
    · exact h2 y hmem

theorem foldlMin_mem (l : List Int) : ∀ a : Int, l.foldl min a = a ∨ l.foldl min a ∈ l := by
  induction l with
  | nil => intro a; left; rfl
  | cons x xs ih =>
    intro a
    rcases ih (min a x) with h | h
    · rcases min_cases a x with ⟨he, _⟩ | ⟨he, _⟩
      · left
        rw [show xs.foldl min (min a x) = (x :: xs).foldl min a from rfl] at h
        rw [h, he]
      · right
        rw [show xs.foldl min (min a x) = (x :: xs).foldl min a from rfl] at h
        rw [h, he]
        exact List.mem_cons_self x xs
    · right
      exact List.mem_cons_of_mem x h

theorem foldlMax_le (l : List Int) : ∀ a : Int,
    a ≤ l.foldl max a ∧ ∀ x ∈ l, x ≤ l.foldl max a := by
  induction l with
  | nil => intro a; simp
  | cons x xs ih =>
    intro a
    obtain ⟨h1, h2⟩ := ih (max a x)
    refine ⟨le_trans (le_max_left a x) h1, ?_⟩
    intro y hy
    rcases List.mem_cons.mp hy with rfl | hmem
    · exact le_trans (le_max_right a y) h1
    · exact h2 y hmem

theorem foldlMax_mem (l : List Int) : ∀ a : Int, l.foldl max a = a ∨ l.foldl max a ∈ l := by
  induction l with
  | nil => intro a; left; rfl
  | cons x xs ih =>
    intro a
    rcases ih (max a x) with h | h
    · rcases max_cases a x with ⟨he, _⟩ | ⟨he, _⟩
      · left
        rw [show xs.foldl max (max a x) = (x :: xs).foldl max a from rfl] at h
        rw [h, he]
      · right
        rw [show xs.foldl max (max a x) = (x :: xs).foldl max a from rfl] at h
        rw [h, he]
        exact List.mem_cons_self x xs
    · right
      exact List.mem_cons_of_mem x h

theorem foldlMin_map_mono (f : Int → Int) (hf : ∀ {a b : Int}, a ≤ b → f a ≤ f b)
    (l : List Int) : ∀ a : Int, f (l.foldl min a) = (l.map f).foldl min (f a) := by
  induction l with
  | nil => intro a; rfl
  | cons x xs ih =>
    intro a
    show f (xs.foldl min (min a x)) = (xs.map f).foldl min (min (f a) (f x))
    have hmin : f (min a x) = min (f a) (f x) := by
      rcases le_total a x with h | h
      · rw [min_eq_left h, min_eq_left (hf h)]
      · rw [min_eq_right h, min_eq_right (hf h)]
    rw [← hmin]
    exact ih (min a x)

theorem foldlMax_map_mono (f : Int → Int) (hf : ∀ {a b : Int}, a ≤ b → f a ≤ f b)
    (l : List Int) : ∀ a : Int, f (l.foldl max a) = (l.map f).foldl max (f a) := by
  induction l with
  | nil => intro a; rfl
  | cons x xs ih =>
    intro a
    show f (xs.foldl max (max a x)) = (xs.map f).foldl max (max (f a) (f x))
    have hmax : f (max a x) = max (f a) (f x) := by
      rcases le_total a x with h | h
      · rw [max_eq_right h, max_eq_right (hf h)]
      · rw [max_eq_left h, max_eq_left (hf h)]
    rw [← hmax]
    exact ih (max a x)

theorem jsMathMin_some (x : Int) (xs : List Int) :
    jsMathMin ((x :: xs).map some) = .int (xs.foldl min x) := by
  suffices h : ∀ (l : List Int) (a : Int), (l.map some).foldl jsMinStep (.int a) =
      .int (l.foldl min a) from h xs x
  intro l
  induction l with
  | nil => intro a; rfl
  | cons z zs ih => intro a; exact ih (min a z)

theorem jsMathMax_some (x : Int) (xs : List Int) :
    jsMathMax ((x :: xs).map some) = .int (xs.foldl max x) := by
  suffices h : ∀ (l : List Int) (a : Int), (l.map some).foldl jsMaxStep (.int a) =
      .int (l.foldl max a) from h xs x
  intro l
  induction l with
  | nil => intro a; rfl
  | cons z zs ih => intro a; exact ih (max a z)

/-- The year of a millisecond time value, as `getFullYear` computes it. -/
def yearOfMs (t : Int) : Int := yearFromDays (t / msPerDay)

theorem yearOfMs_mono {t1 t2 : Int} (h : t1 ≤ t2) : yearOfMs t1 ≤ yearOfMs t2 :=
  yearFromDays_mono (Int.ediv_le_ediv (by norm_num [msPerDay]) h)

theorem eventYear_eq_yearOfMs (e : TimelineData) (h : e.date.isValid = true) :
    eventYear e = yearOfMs (eventTime e) := by
  cases hd : e.date with
  | null => rw [hd] at h; simp [JSDateVal.isValid] at h
  | invalid => rw [hd] at h; simp [JSDateVal.isValid] at h
  | valid t => unfold eventYear eventTime yearOfMs; rw [hd]

theorem fallbackWindow_valid (td : List TimelineData)
    (hne : td ≠ [])
    (hval : ∀ e ∈ td, e.date.isValid = true)
    (hyr : ∀ e ∈ td, 100 ≤ eventYear e) :
    fallbackWindow td = (jan1 (minEventYear td), jan1 (maxEventYear td + 1)) := by
  have hmap : td.map (fun d => dateToNum d.date) = (td.map eventTime).map some := by
    rw [List.map_map]
    refine List.map_congr_left ?_
    intro e he
    have h := hval e he
    cases hd : e.date with
    | null => rw [hd] at h; simp [JSDateVal.isValid] at h
    | invalid => rw [hd] at h; simp [JSDateVal.isValid] at h
    | valid t => simp [dateToNum, eventTime, hd]
  have hyears : td.map eventYear = (td.map eventTime).map yearOfMs := by
    rw [List.map_map]
    exact List.map_congr_left fun e he => eventYear_eq_yearOfMs e (hval e he)
  obtain ⟨e0, rest, rfl⟩ : ∃ e0 rest, td = e0 :: rest := by
    cases td with
    | nil => exact absurd rfl hne
    | cons a l => exact ⟨a, l, rfl⟩
  have hminY : yearOfMs ((rest.map eventTime).foldl min (eventTime e0)) =
      minEventYear (e0 :: rest) := by
    unfold minEventYear
    rw [hyears]
    show _ = ((rest.map eventTime).map yearOfMs).foldl min (yearOfMs (eventTime e0))
    exact foldlMin_map_mono yearOfMs (fun h => yearOfMs_mono h) (rest.map eventTime) _
  have hmaxY : yearOfMs ((rest.map eventTime).foldl max (eventTime e0)) =
      maxEventYear (e0 :: rest) := by
    unfold maxEventYear
    rw [hyears]
    show _ = ((rest.map eventTime).map yearOfMs).foldl max (yearOfMs (eventTime e0))
    exact foldlMax_map_mono yearOfMs (fun h => yearOfMs_mono h) (rest.map eventTime) _
  have hminRange : 100 ≤ minEventYear (e0 :: rest) := by
    show 100 ≤ (List.map eventYear rest).foldl min (eventYear e0)
    rcases foldlMin_mem (List.map eventYear rest) (eventYear e0) with hh | hh
    · rw [hh]; exact hyr e0 (by simp)
    · obtain ⟨e, he, heq⟩ := List.mem_map.mp hh
      rw [← heq]
      exact hyr e (by simp [he])
  have hmaxRange : 100 ≤ maxEventYear (e0 :: rest) := by
    show 100 ≤ (List.map eventYear rest).foldl max (eventYear e0)
    rcases foldlMax_mem (List.map eventYear rest) (eventYear e0) with hh | hh
    · rw [hh]; exact hyr e0 (by simp)
    · obtain ⟨e, he, heq⟩ := List.mem_map.mp hh
      rw [← heq]
      exact hyr e (by simp [he])
  unfold fallbackWindow
  rw [hmap]
  rw [show (e0 :: rest).map eventTime = eventTime e0 :: rest.map eventTime from rfl,
    jsMathMin_some, jsMathMax_some]
  show (mkDateY (yearOfMs ((rest.map eventTime).foldl min (eventTime e0)) + 0),
        mkDateY (yearOfMs ((rest.map eventTime).foldl max (eventTime e0)) + 1)) = _
  rw [hminY, hmaxY, add_zero]
  rw [mkDateY_eq_jan1 _ (by omega), mkDateY_eq_jan1 _ (by omega)]

/-- C2 (confirmed): for a non-empty extracted event list all of whose dates
are real dates (the spec's `date` is null for missing values; events with
such dates are covered by C8), with non-negative configured offsets and
years outside the two-digit-constructor quirk range: if at least one event
year lies in `[cy - back, cy + fwd]`, the selector returns the candidate
window `[Jan 1 (cy - back), Jan 1 (cy + fwd)]` and the working set is
exactly the in-window events in original order; otherwise it returns the
data-driven window `[Jan 1 (min event year), Jan 1 (max event year + 1)]`
and the working set is the full capped input list. -/
theorem selectWindow_correct (cy back fwd : Int) (td : List TimelineData)
    (hne : td ≠ [])
    (hval : ∀ e ∈ td, e.date.isValid = true)
    (hyr : ∀ e ∈ td, 100 ≤ eventYear e)
    (hb : 0 ≤ back) (hf : 0 ≤ fwd) (hcy : 100 ≤ cy - back) :
    ((∃ e ∈ td, cy - back ≤ eventYear e ∧ eventYear e ≤ cy + fwd) →
      selectWindow cy back fwd td =
        .ok (jan1 (cy - back), jan1 (cy + fwd),
          td.filter fun e =>
            decide (cy - back ≤ eventYear e) && decide (eventYear e ≤ cy + fwd))) ∧
    ((∀ e ∈ td, ¬(cy - back ≤ eventYear e ∧ eventYear e ≤ cy + fwd)) →
      selectWindow cy back fwd td =
        .ok (jan1 (minEventYear td), jan1 (maxEventYear td + 1), td)) := by
  have h0 : 0 < td.length := List.length_pos.mpr hne
  have hq1 : quirkYear (cy - back) = cy - back := by
    unfold quirkYear
    rw [if_neg (by omega)]
  have hq2 : quirkYear (cy + fwd) = cy + fwd := by
    unfold quirkYear
    rw [if_neg (by omega)]
  have hf1 := filterPass_valid (fun y => geJS y (some (cy - back))) td hval
  have hsub : ∀ e ∈ td.filter (fun e => geJS (some (eventYear e)) (some (cy - back))),
      e.date.isValid = true := fun e he => hval e (List.mem_filter.mp he).1
  have hf2 := filterPass_valid (fun y => leJS y (some (cy + fwd)))
    (td.filter (fun e => geJS (some (eventYear e)) (some (cy - back)))) hsub
  have hcomb : (td.filter (fun e => geJS (some (eventYear e)) (some (cy - back)))).filter
        (fun e => leJS (some (eventYear e)) (some (cy + fwd))) =
      td.filter (fun e =>
        decide (cy - back ≤ eventYear e) && decide (eventYear e ≤ cy + fwd)) := by
    rw [List.filter_filter]
    exact List.filter_congr fun e _ => Bool.and_comm _ _
  have hred : selectWindow cy back fwd td =
      (if 0 < (td.filter (fun e =>
          decide (cy - back ≤ eventYear e) && decide (eventYear e ≤ cy + fwd))).length
       then .ok (mkDateY (cy - back), mkDateY (cy + fwd),
         td.filter (fun e =>
           decide (cy - back ≤ eventYear e) && decide (eventYear e ≤ cy + fwd)))
       else .ok ((fallbackWindow td).1, (fallbackWindow td).2, td)) := by
    unfold selectWindow
    rw [if_pos h0]
    dsimp only
    rw [getFullYear_mkDateY (cy - back), hq1]
    dsimp only
    rw [hf1]
    dsimp only
    rw [getFullYear_mkDateY (cy + fwd), hq2]
    dsimp only
    rw [hf2]
    dsimp only
    rw [hcomb]
  constructor
  · intro hx
    obtain ⟨e, he, hey⟩ := hx
    have hmem : e ∈ td.filter (fun e =>
        decide (cy - back ≤ eventYear e) && decide (eventYear e ≤ cy + fwd)) :=
      List.mem_filter.mpr ⟨he, by simp [hey.1, hey.2]⟩
    have hpos : 0 < (td.filter (fun e =>
        decide (cy - back ≤ eventYear e) && decide (eventYear e ≤ cy + fwd))).length :=
      List.length_pos.mpr (List.ne_nil_of_mem hmem)
    rw [hred, if_pos hpos, mkDateY_eq_jan1 _ (by omega), mkDateY_eq_jan1 _ (by omega)]
  · intro hx
    have hnil : td.filter (fun e =>
        decide (cy - back ≤ eventYear e) && decide (eventYear e ≤ cy + fwd)) = [] :=
      List.filter_eq_nil_iff.mpr fun e he => by
        have := hx e he
        simp only [Bool.and_eq_true, decide_eq_true_eq]
        omega
    rw [hred, hnil]
    rw [if_neg (by simp)]
    rw [fallbackWindow_valid td hne hval hyr]

/-- C2 witness: three events (years 2022, 2023, 2021) with current year
2024, yearsBack 1, yearsForward 8: only the 2023 event is inside the window
[2023, 2032], and the selector returns the candidate window with exactly
that event. -/
theorem selectWindow_correct_witness :
    selectWindow 2024 1 8
      [ evWith (.valid (daysToYear 2022 * msPerDay)),
        evWith (.valid (daysToYear 2023 * msPerDay)),
        evWith (.valid (daysToYear 2021 * msPerDay)) ] =
      .ok (jan1 2023, jan1 2032, [ evWith (.valid (daysToYear 2023 * msPerDay)) ]) := by
  have h := (selectWindow_correct 2024 1 8
      [ evWith (.valid (daysToYear 2022 * msPerDay)),
        evWith (.valid (daysToYear 2023 * msPerDay)),
        evWith (.valid (daysToYear 2021 * msPerDay)) ]
      (by decide) (by decide) (by decide) (by decide) (by decide) (by decide)).1
      (by refine ⟨evWith (.valid (daysToYear 2023 * msPerDay)), by decide, by decide⟩)
  rw [h]
  decide

end Timeline
